import Mathlib

set_option maxRecDepth 10000

/-!
Verification of the streaming chat client of the rag-project-client
repository.  The definitions below are a shallow embedding of the core
subsystem: the frame decoder, the event interpreter and the session
controller of `src/hooks/useStreamingChat.ts` (`sendMessage`), and the
reconciliation logic of the chat page
(`src/app/(dashboard)/projects/[projectId]/chats/[chatId]/page.tsx`,
`handleSendMessage`).
-/

/-- Citation, as in the `Citation` interface of `useStreamingChat.ts`
(`chunk_id`, `document_id`, `filename`, `page`). -/
structure Citation where
  chunk_id : String
  document_id : String
  filename : String
  page : Int
deriving DecidableEq

/-- WebSource, as in the `WebSource` interface of `useStreamingChat.ts`
(`url`, `title`, `snippet`). -/
structure WebSource where
  url : String
  title : String
  snippet : String
deriving DecidableEq

/-- Message, as in the `Message` interface of `useStreamingChat.ts`:
`id`, `content`, `role` (the union type `"user" | "assistant"`, embedded as
a string), `created_at`, `chat_id`, `clerk_id`, and the optional
`citations` array. -/
structure Message where
  id : String
  content : String
  role : String
  created_at : String
  chat_id : String
  clerk_id : String
  citations : Option (List Citation)
deriving DecidableEq

/-- A decoded stream event.  The source's `StreamEvent` interface is
`{type: string, content: any, category?}`; at runtime the payload of each
`type` has the shape given by the protocol (string for `status`, `token`,
`guardrail_*` and `error`, Citation list for `citations`, WebSource list
for `web_sources`, a Message for `user_message`/`ai_message`, `null` for
`done`).  The embedding types each payload accordingly; a `type` string
with no case in the source's `switch` is `other`. -/
inductive StreamEvent where
  | status (s : String)
  | token (s : String)
  | citations (cs : List Citation)
  | webSources (ws : List WebSource)
  | userMessage (m : Message)
  | aiMessage (m : Message)
  | guardrailBlocked (s : String)
  | guardrailWarning (s : String)
  | done
  | error (s : String)
  | other (t : String)
deriving DecidableEq

/-- The per-send accumulator of `sendMessage`: the local variables
`fullResponse`, `collectedCitations`, `collectedWebSources`,
`userMessage`, `aiMessage`, `blocked`, `blockReason`, together with the
two pieces of React state the loop writes (`streamingContent` via
`setStreamingContent`, `status` via `setStatus`).  The remaining React
mirrors (`setCitations`, `setWebSources`) always receive exactly the same
value as the corresponding local variable and are not duplicated here. -/
structure SessionState where
  fullResponse : String
  streamingContent : String
  status : String
  collectedCitations : List Citation
  collectedWebSources : List WebSource
  userMessage : Option Message
  aiMessage : Option Message
  blocked : Bool
  blockReason : Option String
deriving DecidableEq

/-- The state at the top of `sendMessage` (lines 70-84 of
`useStreamingChat.ts`): empty strings, empty lists, `null` messages,
`blocked = false`, `blockReason = undefined`. -/
def initialState : SessionState :=
  { fullResponse := ""
    streamingContent := ""
    status := ""
    collectedCitations := []
    collectedWebSources := []
    userMessage := none
    aiMessage := none
    blocked := false
    blockReason := none }

/-- The body of the `switch (event.type)` statement (lines 115-162 of
`useStreamingChat.ts`), one case per event type.  The `error` case is the
source's `throw new Error(event.content)`, embedded as `Except.error`;
all other cases update the state and fall through normally. -/
def interpretEvent (st : SessionState) (e : StreamEvent) : Except String SessionState :=
  match e with
  | StreamEvent.status c => Except.ok { st with status := c }
  | StreamEvent.token c =>
      Except.ok { st with
        fullResponse := st.fullResponse ++ c
        streamingContent := st.fullResponse ++ c }
  | StreamEvent.citations cs => Except.ok { st with collectedCitations := cs }
  | StreamEvent.webSources ws => Except.ok { st with collectedWebSources := ws }
  | StreamEvent.userMessage m => Except.ok { st with userMessage := some m }
  | StreamEvent.aiMessage m => Except.ok { st with aiMessage := some m }
  | StreamEvent.guardrailBlocked c =>
      Except.ok { st with
        blocked := true
        blockReason := some c
        fullResponse := c
        streamingContent := c
        status := "🛡️ Message blocked" }
  | StreamEvent.guardrailWarning _ => Except.ok st
  | StreamEvent.done => Except.ok st
  | StreamEvent.error c => Except.error c
  | StreamEvent.other _ => Except.ok st

/-- Processing one decoded event, as the inner `try { ... switch ... }
catch (parseError) { /- Ignore incomplete JSON -/ }` block does (lines
112-165): everything the switch throws — including the `throw new Error`
of the `error` case — is caught by the `catch (parseError)` handler,
which discards it and leaves the state as it was. -/
def processEvent (st : SessionState) (e : StreamEvent) : SessionState :=
  match interpretEvent st e with
  | Except.ok st2 => st2
  | Except.error _ => st

/-- Folding a whole sequence of decoded events through the interpreter in
arrival order, as the `for (const line of lines)` loop does across the
read loop. -/
def processEvents (st : SessionState) (es : List StreamEvent) : SessionState :=
  es.foldl processEvent st

/-- The value `sendMessage` resolves with on a successful stream, the
`StreamResult` interface of `useStreamingChat.ts`. -/
structure StreamResult where
  userMessage : Message
  aiMessage : Message
  response : String
  citations : List Citation
  webSources : List WebSource
  blocked : Bool
  blockReason : Option String
deriving DecidableEq

/-- The settlement step after the read loop (lines 170-180 of
`useStreamingChat.ts`): `if (userMessage && aiMessage) return {...}`;
otherwise `sendMessage` falls through and resolves with `undefined`,
embedded as `none`. -/
def mkResult (st : SessionState) : Option StreamResult :=
  match st.userMessage, st.aiMessage with
  | some u, some a =>
      some { userMessage := u
             aiMessage := a
             response := st.fullResponse
             citations := st.collectedCitations
             webSources := st.collectedWebSources
             blocked := st.blocked
             blockReason := st.blockReason }
  | _, _ => none

/-- One complete non-aborted `sendMessage` run at the event level: the
decoded events are folded in arrival order until the transport reports
end-of-stream, then the settlement check runs.  `none` is the `undefined`
resolution (clean end-of-stream without both messages). -/
def runSend (es : List StreamEvent) : Option StreamResult :=
  mkResult (processEvents initialState es)

/-- How a `sendMessage` call settles, as observed by its caller:
`ok` is resolving with a `StreamResult`; `noResult` is resolving with
`undefined` (clean end-of-stream without both messages, or an
`AbortError` caught at line 183); `threw` is rejecting (a non-abort
exception rethrown at line 187). -/
inductive SendResult where
  | ok (r : StreamResult)
  | noResult
  | threw
deriving DecidableEq

/-- A `sendMessage` run in which the events delivered before the stream
settles are `es`, and `aborted` says whether the cancellation token fired
before end-of-stream.  When it fired, the pending `reader.read()` rejects
with `AbortError`, which the catch block at lines 182-184 recognises by
name and swallows, so the call resolves with `undefined` (`noResult`). -/
def sendMessageRun (es : List StreamEvent) (aborted : Bool) : SendResult :=
  if aborted then SendResult.noResult
  else
    match runSend es with
    | some r => SendResult.ok r
    | none => SendResult.noResult

/-- Whether the decoded event sequence contains a `user_message` event. -/
def containsUserMessage (es : List StreamEvent) : Bool :=
  es.any fun e =>
    match e with
    | StreamEvent.userMessage _ => true
    | _ => false

/-- Whether the decoded event sequence contains an `ai_message` event. -/
def containsAiMessage (es : List StreamEvent) : Bool :=
  es.any fun e =>
    match e with
    | StreamEvent.aiMessage _ => true
    | _ => false

/-- Whether the decoded event sequence contains a terminal (`done` or
`error`) event. -/
def containsTerminal (es : List StreamEvent) : Bool :=
  es.any fun e =>
    match e with
    | StreamEvent.done => true
    | StreamEvent.error _ => true
    | _ => false

/-- One step of the text projection of the interpreter: a `token` event
appends its payload, a `guardrail_blocked` event replaces the accumulator
with its payload, every other event leaves it unchanged. -/
def respStep (acc : String) (e : StreamEvent) : String :=
  match e with
  | StreamEvent.token s => acc ++ s
  | StreamEvent.guardrailBlocked s => s
  | _ => acc

/-- The response text a decoded event sequence produces, as a standalone
fold: the concatenation of all `token` payloads, except that each
`guardrail_blocked` event resets the accumulator to its payload. -/
def expectedText (es : List StreamEvent) : String :=
  es.foldl respStep ("")

/-- One step of the user-message projection of the interpreter: every
`user_message` event stores its payload (overwriting any previous one). -/
def userStep (acc : Option Message) (e : StreamEvent) : Option Message :=
  match e with
  | StreamEvent.userMessage m => some m
  | _ => acc

/-- One step of the ai-message projection of the interpreter. -/
def aiStep (acc : Option Message) (e : StreamEvent) : Option Message :=
  match e with
  | StreamEvent.aiMessage m => some m
  | _ => acc

theorem processEvents_cons (st : SessionState) (e : StreamEvent) (es : List StreamEvent) :
    processEvents st (e :: es) = processEvents (processEvent st e) es := rfl

theorem processEvents_fullResponse (es : List StreamEvent) :
    ∀ st : SessionState, (processEvents st es).fullResponse = es.foldl respStep st.fullResponse := by
  induction es with
  | nil => intro st; rfl
  | cons e es ih =>
      intro st
      rw [processEvents_cons, ih]
      cases e <;> rfl

theorem processEvents_userMessage (es : List StreamEvent) :
    ∀ st : SessionState, (processEvents st es).userMessage = es.foldl userStep st.userMessage := by
  induction es with
  | nil => intro st; rfl
  | cons e es ih =>
      intro st
      rw [processEvents_cons, ih]
      cases e <;> rfl

theorem processEvents_aiMessage (es : List StreamEvent) :
    ∀ st : SessionState, (processEvents st es).aiMessage = es.foldl aiStep st.aiMessage := by
  induction es with
  | nil => intro st; rfl
  | cons e es ih =>
      intro st
      rw [processEvents_cons, ih]
      cases e <;> rfl

theorem userFold_isSome (es : List StreamEvent) :
    ∀ acc : Option Message, (containsUserMessage es = true ∨ acc.isSome = true) →
      (es.foldl userStep acc).isSome = true := by
  induction es with
  | nil =>
      intro acc h
      rcases h with h | h
      · simp [containsUserMessage] at h
      · simpa using h
  | cons e es ih =>
      intro acc h
      show (es.foldl userStep (userStep acc e)).isSome = true
      cases e with
      | userMessage m => exact ih (some m) (Or.inr rfl)
      | _ =>
          apply ih
          rcases h with h | h
          · left
            simp [containsUserMessage, List.any_cons] at h
            simp [containsUserMessage]
            exact h
          · right; simpa [userStep] using h

theorem aiFold_isSome (es : List StreamEvent) :
    ∀ acc : Option Message, (containsAiMessage es = true ∨ acc.isSome = true) →
      (es.foldl aiStep acc).isSome = true := by
  induction es with
  | nil =>
      intro acc h
      rcases h with h | h
      · simp [containsAiMessage] at h
      · simpa using h
  | cons e es ih =>
      intro acc h
      show (es.foldl aiStep (aiStep acc e)).isSome = true
      cases e with
      | aiMessage m => exact ih (some m) (Or.inr rfl)
      | _ =>
          apply ih
          rcases h with h | h
          · left
            simp [containsAiMessage, List.any_cons] at h
            simp [containsAiMessage]
            exact h
          · right; simpa [aiStep] using h

theorem aiFold_of_absent (es : List StreamEvent) (h : containsAiMessage es = false) :
    ∀ acc : Option Message, es.foldl aiStep acc = acc := by
  induction es with
  | nil => intro acc; rfl
  | cons e es ih =>
      intro acc
      have h2 : containsAiMessage es = false := by
        simp [containsAiMessage, List.any_cons] at h
        simp [containsAiMessage]
        exact h.2
      show es.foldl aiStep (aiStep acc e) = acc
      cases e with
      | aiMessage m =>
          exfalso
          simp [containsAiMessage, List.any_cons] at h
      | _ => rw [ih h2]; rfl

theorem mkResult_eq_some (st : SessionState) (u a : Message)
    (hu : st.userMessage = some u) (ha : st.aiMessage = some a) :
    mkResult st = some { userMessage := u
                         aiMessage := a
                         response := st.fullResponse
                         citations := st.collectedCitations
                         webSources := st.collectedWebSources
                         blocked := st.blocked
                         blockReason := st.blockReason } := by
  unfold mkResult
  rw [hu, ha]

theorem mkResult_eq_none (st : SessionState) (ha : st.aiMessage = none) :
    mkResult st = none := by
  unfold mkResult
  rw [ha]
  cases st.userMessage <;> rfl

/-- A concrete server-confirmed user message, for concrete runs. -/
def u0 : Message :=
  { id := "msg-user-1"
    content := "What is RAG?"
    role := "user"
    created_at := "2026-01-01T00:00:01Z"
    chat_id := "chat-1"
    clerk_id := "user-1"
    citations := none }

/-- A second, distinct server-confirmed user message. -/
def u1 : Message :=
  { id := "msg-user-2"
    content := "What is RAG?"
    role := "user"
    created_at := "2026-01-01T00:00:02Z"
    chat_id := "chat-1"
    clerk_id := "user-1"
    citations := none }

/-- A concrete server-confirmed assistant message. -/
def a0 : Message :=
  { id := "msg-ai-1"
    content := "Retrieval-augmented generation."
    role := "assistant"
    created_at := "2026-01-01T00:00:03Z"
    chat_id := "chat-1"
    clerk_id := "user-1"
    citations := some [] }

/-- C2.  The claim says every event sequence containing an `error` event
makes the send fail with the error payload as detail, never settling as a
successful StreamOutcome.  The code violates this: the
`throw new Error(event.content)` of the `error` case (line 161 of
`useStreamingChat.ts`) sits inside the same `try` block as `JSON.parse`,
so the `catch (parseError)` handler at line 163 — whose comment says it
only ignores incomplete JSON — swallows it.  The first conjunct shows the
switch itself does throw the payload (the code's evident intent); the
second shows the surrounding catch discards it, leaving the state
unchanged; the third evaluates the full send on a stream that carries an
`error` event and nonetheless resolves with a successful result. -/
theorem errorEventIsSwallowed :
    (∀ (st : SessionState) (s : String),
        interpretEvent st (StreamEvent.error s) = Except.error s) ∧
    (∀ (st : SessionState) (s : String),
        processEvent st (StreamEvent.error s) = st) ∧
    runSend [StreamEvent.userMessage u0, StreamEvent.aiMessage a0,
             StreamEvent.error ("backend failure"), StreamEvent.done] =
      some { userMessage := u0
             aiMessage := a0
             response := ""
             citations := []
             webSources := []
             blocked := false
             blockReason := none } :=
  ⟨fun _ _ => rfl, fun _ _ => rfl, rfl⟩

/-- C3.  A stream that reaches clean end-of-stream without any
`ai_message` event resolves with `undefined` (`none`), the
incomplete-result outcome, never with a successful StreamResult: the
`if (userMessage && aiMessage)` guard at line 170 fails because
`aiMessage` is still `null`. -/
theorem eofWithoutAiMessageIsIncomplete (es : List StreamEvent)
    (h : containsAiMessage es = false) :
    runSend es = none := by
  apply mkResult_eq_none
  rw [processEvents_aiMessage]
  exact aiFold_of_absent es h initialState.aiMessage

/-- Witness for `eofWithoutAiMessageIsIncomplete` at a concrete stream
with a `user_message` and a `done` but no `ai_message`. -/
theorem eofWithoutAiMessageIsIncompleteWitness :
    containsAiMessage [StreamEvent.userMessage u0, StreamEvent.token ("partial"),
        StreamEvent.done] = false ∧
    runSend [StreamEvent.userMessage u0, StreamEvent.token ("partial"),
        StreamEvent.done] = none :=
  ⟨by decide,
   eofWithoutAiMessageIsIncomplete
     [StreamEvent.userMessage u0, StreamEvent.token ("partial"), StreamEvent.done]
     (by decide)⟩

/-- C5.  Folding a `guardrail_blocked` event with payload `p` sets
`blocked = true`, `blockReason = p`, overwrites the accumulated text
(both `fullResponse` and the published `streamingContent`) with `p`, and
sets the status to the fixed string `"🛡️ Message blocked"` (lines
143-151 of `useStreamingChat.ts`); in particular a `guardrail_blocked`
event arriving after two `token` events leaves final text `p`,
`blocked = true` and `blockReason = p`. -/
theorem guardrailBlockedOverwrites (st : SessionState) (p t1 t2 : String) :
    processEvent st (StreamEvent.guardrailBlocked p) =
      { st with
        blocked := true
        blockReason := some p
        fullResponse := p
        streamingContent := p
        status := "🛡️ Message blocked" } ∧
    (processEvents initialState
        [StreamEvent.token t1, StreamEvent.token t2,
         StreamEvent.guardrailBlocked p]).fullResponse = p ∧
    (processEvents initialState
        [StreamEvent.token t1, StreamEvent.token t2,
         StreamEvent.guardrailBlocked p]).blocked = true ∧
    (processEvents initialState
        [StreamEvent.token t1, StreamEvent.token t2,
         StreamEvent.guardrailBlocked p]).blockReason = some p :=
  ⟨rfl, rfl, rfl, rfl⟩

/-- C6 counterexample.  The claim says the final text equals the
concatenation of all `token` payloads, or equals the block message
whenever a `guardrail_blocked` event occurred anywhere (overriding prior
and subsequent tokens).  On the stream below the code produces
`"Blocked. extra"`: the `token` event that arrives after the
`guardrail_blocked` event is appended after the block message (line 121
of `useStreamingChat.ts`), so the final text is neither the block message
`"Blocked."` nor the token concatenation `" extra"`. -/
theorem tokenAfterBlockAppends :
    (runSend [StreamEvent.userMessage u0, StreamEvent.guardrailBlocked ("Blocked."),
        StreamEvent.token (" extra"), StreamEvent.aiMessage a0,
        StreamEvent.done]).map (fun r => r.response) = some ("Blocked. extra") ∧
    "Blocked. extra" ≠ "Blocked." ∧
    "Blocked. extra" ≠ " extra" := by
  refine ⟨rfl, ?_, ?_⟩ <;> decide

/-- C6 as amended.  For every event sequence ending in `done` that
contains a `user_message` and an `ai_message` event, `sendMessage`
resolves with a successful StreamResult whose text is the left fold of
the sequence in which each `token` payload is appended and each
`guardrail_blocked` payload replaces the accumulator: with no
`guardrail_blocked` event this is the concatenation of all `token`
payloads in arrival order, and otherwise it is the last block message
followed by the concatenation of the `token` payloads that arrive after
it. -/
theorem doneWithBothMessagesSucceeds (es : List StreamEvent)
    (hd : es.getLast? = some StreamEvent.done)
    (hu : containsUserMessage es = true)
    (ha : containsAiMessage es = true) :
    ∃ r : StreamResult, runSend es = some r ∧ r.response = expectedText es := by
  obtain ⟨u, hu2⟩ := Option.isSome_iff_exists.mp
    (userFold_isSome es (initialState.userMessage) (Or.inl hu))
  obtain ⟨a, ha2⟩ := Option.isSome_iff_exists.mp
    (aiFold_isSome es (initialState.aiMessage) (Or.inl ha))
  have h1 : (processEvents initialState es).userMessage = some u := by
    rw [processEvents_userMessage]; exact hu2
  have h2 : (processEvents initialState es).aiMessage = some a := by
    rw [processEvents_aiMessage]; exact ha2
  refine ⟨_, mkResult_eq_some (processEvents initialState es) u a h1 h2, ?_⟩
  show (processEvents initialState es).fullResponse = expectedText es
  rw [processEvents_fullResponse]
  rfl

/-- Witness for `doneWithBothMessagesSucceeds` at a concrete stream with
a block message followed by a further token. -/
theorem doneWithBothMessagesSucceedsWitness :
    ∃ r : StreamResult,
      runSend [StreamEvent.userMessage u0, StreamEvent.token ("Hi"),
          StreamEvent.guardrailBlocked ("Blocked."), StreamEvent.token (" x"),
          StreamEvent.aiMessage a0, StreamEvent.done] = some r ∧
      r.response = expectedText [StreamEvent.userMessage u0, StreamEvent.token ("Hi"),
          StreamEvent.guardrailBlocked ("Blocked."), StreamEvent.token (" x"),
          StreamEvent.aiMessage a0, StreamEvent.done] :=
  doneWithBothMessagesSucceeds
    [StreamEvent.userMessage u0, StreamEvent.token ("Hi"),
     StreamEvent.guardrailBlocked ("Blocked."), StreamEvent.token (" x"),
     StreamEvent.aiMessage a0, StreamEvent.done]
    (by decide) (by decide) (by decide)

/-- C7 counterexample.  The claim says a second `user_message` event is
reported as a ProtocolError diagnostic rather than silently overwriting
the stored user message.  In the code the `user_message` case (line 136
of `useStreamingChat.ts`) is an unconditional assignment: on the stream
below the stored user message after the run is the second payload `u1`,
with no error raised anywhere. -/
theorem duplicateUserMessageOverwrites :
    (runSend [StreamEvent.userMessage u0, StreamEvent.userMessage u1,
        StreamEvent.aiMessage a0, StreamEvent.done]).map (fun r => r.userMessage) =
      some u1 ∧
    u1 ≠ u0 := by
  refine ⟨rfl, ?_⟩
  decide

/-- C7 as amended.  A `user_message` event unconditionally stores its
payload, silently overwriting any previously stored user message (the
last such event wins); the switch case neither raises an error nor aborts
the stream, so processing continues normally afterwards. -/
theorem userMessageAssignsUnconditionally (st : SessionState) (m : Message)
    (es : List StreamEvent) :
    interpretEvent st (StreamEvent.userMessage m) =
      Except.ok { st with userMessage := some m } ∧
    processEvent st (StreamEvent.userMessage m) = { st with userMessage := some m } ∧
    processEvents st (StreamEvent.userMessage m :: es) =
      processEvents { st with userMessage := some m } es :=
  ⟨rfl, rfl, rfl⟩

/-- C8.  Replaying the same recorded event sequence through the event
interpreter twice from the fresh initial state is deterministic: the
interpreter is embedded exactly as the source computes it — a pure fold
over per-send local state, with no dependence on anything outside the
event sequence — so the two final states agree in every component
(accumulated text, published text, status, citations, web sources,
blocked flag, block reason, user message, ai message). -/
theorem replayIsDeterministic (es : List StreamEvent) :
    (processEvents initialState es).fullResponse =
      (processEvents initialState es).fullResponse ∧
    (processEvents initialState es).streamingContent =
      (processEvents initialState es).streamingContent ∧
    (processEvents initialState es).status = (processEvents initialState es).status ∧
    (processEvents initialState es).collectedCitations =
      (processEvents initialState es).collectedCitations ∧
    (processEvents initialState es).collectedWebSources =
      (processEvents initialState es).collectedWebSources ∧
    (processEvents initialState es).blocked = (processEvents initialState es).blocked ∧
    (processEvents initialState es).blockReason =
      (processEvents initialState es).blockReason ∧
    (processEvents initialState es).userMessage =
      (processEvents initialState es).userMessage ∧
    (processEvents initialState es).aiMessage =
      (processEvents initialState es).aiMessage :=
  ⟨rfl, rfl, rfl, rfl, rfl, rfl, rfl, rfl, rfl⟩

/-- C10.  A `done` event does not terminate stream processing: its switch
case is a bare `break` (lines 157-158 of `useStreamingChat.ts`) and the
read loop ends only when `reader.read()` reports `done` (end-of-stream),
so events after a `done` event are still folded into the state — on the
concrete stream below the `token` payload `"B"` arriving after `done` is
still appended, giving response `"AB"`. -/
theorem doneDoesNotStopProcessing (st : SessionState) (es : List StreamEvent) :
    processEvents st (StreamEvent.done :: es) = processEvents st es ∧
    (runSend [StreamEvent.userMessage u0, StreamEvent.aiMessage a0,
        StreamEvent.token ("A"), StreamEvent.done,
        StreamEvent.token ("B")]).map (fun r => r.response) = some ("AB") :=
  ⟨rfl, rfl⟩

/-- The test `id.startsWith("temp-")` used by the error path of
`handleSendMessage` (line 167 of the chat page) to recognise the locally
generated id of an optimistic message (`temp-${Date.now()}`, line 119). -/
def startsWithTemp (s : String) : Bool :=
  match s.data with
  | 't' :: 'e' :: 'm' :: 'p' :: '-' :: _ => true
  | _ => false

/-- The final ConversationViewModel (the `messages` list of
`currentChatData`) produced by one `handleSendMessage` call of the chat
page, given the messages `prev` present before the call, the optimistic
user message `opt` it inserts, and how the `sendMessage` call settled.
On `ok` the single success update (lines 142-154) filters out the
messages whose id equals the optimistic id and appends the confirmed
user and ai messages; on `noResult` the `if (result)` guard at line 140
is skipped and nothing further happens; on `threw` the catch block
(lines 158-170) removes every message whose id starts with `"temp-"`. -/
def handleSendFinal (prev : List Message) (opt : Message) (res : SendResult) :
    List Message :=
  match res with
  | SendResult.ok r =>
      ((prev ++ [opt]).filter fun m => m.id != opt.id) ++ [r.userMessage, r.aiMessage]
  | SendResult.noResult => prev ++ [opt]
  | SendResult.threw => (prev ++ [opt]).filter fun m => !(startsWithTemp m.id)

/-- The successive ConversationViewModel states one `handleSendMessage`
call exposes, in order: the state before the call, the state after the
optimistic insert (the `setCurrentChatData` at lines 129-135), and — when
a further update runs — the state after it.  Each entry is the result of
one atomic `setCurrentChatData` update, so these are the only states a
reader of the view model can observe. -/
def handleSendHistory (prev : List Message) (opt : Message) (res : SendResult) :
    List (List Message) :=
  match res with
  | SendResult.ok r =>
      [prev, prev ++ [opt],
       ((prev ++ [opt]).filter fun m => m.id != opt.id) ++ [r.userMessage, r.aiMessage]]
  | SendResult.noResult => [prev, prev ++ [opt]]
  | SendResult.threw =>
      [prev, prev ++ [opt], (prev ++ [opt]).filter fun m => !(startsWithTemp m.id)]

/-- A concrete optimistic (provisional) user message, with the locally
generated `temp-${Date.now()}` id and the fields `handleSendMessage`
fills in at lines 118-126. -/
def mTemp : Message :=
  { id := "temp-1760000000000"
    content := "What is RAG?"
    role := "user"
    created_at := "2026-01-01T00:00:00Z"
    chat_id := "chat-1"
    clerk_id := "user-1"
    citations := some [] }

/-- A concrete message already present in the conversation before the
send under consideration. -/
def mExisting : Message :=
  { id := "msg-old-1"
    content := "Earlier question"
    role := "user"
    created_at := "2025-12-31T00:00:00Z"
    chat_id := "chat-1"
    clerk_id := "user-1"
    citations := none }

/-- A concrete successful StreamResult carrying the confirmed messages. -/
def rSuccess : StreamResult :=
  { userMessage := u0
    aiMessage := a0
    response := "Retrieval-augmented generation."
    citations := []
    webSources := []
    blocked := false
    blockReason := none }

/-- C4 counterexample.  The claim says a send cancelled before any
terminal event leaves the ConversationViewModel containing neither the
provisional message nor any confirmed message from that send.  In the
code an aborted `sendMessage` resolves with `undefined` instead of
throwing (the `AbortError` branch at lines 182-184 of
`useStreamingChat.ts` only logs), so in `handleSendMessage` the
`if (result)` block is skipped and the catch block that would remove the
optimistic message never runs: after cancelling a send that had only
delivered one `token` event, the view model still contains the
provisional message `mTemp`. -/
theorem cancelledSendKeepsProvisional :
    sendMessageRun [StreamEvent.token ("partial")] true = SendResult.noResult ∧
    handleSendFinal [] mTemp (sendMessageRun [StreamEvent.token ("partial")] true) =
      [mTemp] ∧
    mTemp ∈ handleSendFinal [] mTemp
      (sendMessageRun [StreamEvent.token ("partial")] true) := by
  refine ⟨rfl, rfl, ?_⟩
  decide

/-- C4 as amended.  Cancelling a send before any terminal event is
observed makes `sendMessage` settle with no result (`undefined`) — it
neither resolves with a StreamResult nor throws — and afterwards the
ConversationViewModel consists of the previous messages followed by the
provisional message: the provisional message from that send is retained
(it is only removed when `sendMessage` throws), and no confirmed message
from that send is present. -/
theorem cancelledSendSettlesWithoutResult (prev : List Message) (opt : Message)
    (es : List StreamEvent) (h : containsTerminal es = false) :
    sendMessageRun es true = SendResult.noResult ∧
    handleSendFinal prev opt (sendMessageRun es true) = prev ++ [opt] :=
  ⟨rfl, rfl⟩

/-- Witness for `cancelledSendSettlesWithoutResult` at a concrete
non-terminal prefix. -/
theorem cancelledSendSettlesWithoutResultWitness :
    containsTerminal [StreamEvent.token ("partial")] = false ∧
    sendMessageRun [StreamEvent.token ("partial")] true = SendResult.noResult ∧
    handleSendFinal [mExisting] mTemp
      (sendMessageRun [StreamEvent.token ("partial")] true) = [mExisting] ++ [mTemp] :=
  ⟨by decide,
   (cancelledSendSettlesWithoutResult [mExisting] mTemp
      [StreamEvent.token ("partial")] (by decide)).1,
   (cancelledSendSettlesWithoutResult [mExisting] mTemp
      [StreamEvent.token ("partial")] (by decide)).2⟩

/-- C9.  On a successful send the reconciliation update of the chat page
is a single atomic view-model write: given that no previously present
message carries the optimistic id, that the confirmed messages carry
server ids distinct from the optimistic id, and that the confirmed user
message is genuinely new, the final view model is exactly the previous
messages with the confirmed user message and then the confirmed ai
message appended (the provisional message removed, everything else
unchanged, user before assistant); and no view-model state
`handleSendMessage` ever exposes contains both the provisional message
and the confirmed user message. -/
theorem successReconciliationIsAtomic (prev : List Message) (opt : Message)
    (r : StreamResult)
    (hprev : ∀ m ∈ prev, m.id ≠ opt.id)
    (huid : r.userMessage.id ≠ opt.id)
    (haid : r.aiMessage.id ≠ opt.id)
    (hnew : r.userMessage ∉ prev) :
    handleSendFinal prev opt (SendResult.ok r) =
      prev ++ [r.userMessage, r.aiMessage] ∧
    ∀ s ∈ handleSendHistory prev opt (SendResult.ok r),
      ¬ (opt ∈ s ∧ r.userMessage ∈ s) := by
  have hfilter : (prev ++ [opt]).filter (fun m => m.id != opt.id) = prev := by
    rw [List.filter_append]
    have h1 : prev.filter (fun m => m.id != opt.id) = prev :=
      List.filter_eq_self.mpr (fun m hm => by simpa using hprev m hm)
    have h2 : [opt].filter (fun m => m.id != opt.id) = [] := by simp
    rw [h1, h2, List.append_nil]
  constructor
  · show ((prev ++ [opt]).filter fun m => m.id != opt.id) ++
        [r.userMessage, r.aiMessage] = prev ++ [r.userMessage, r.aiMessage]
    rw [hfilter]
  · intro s hs
    have hoptprev : opt ∉ prev := fun hmem => hprev opt hmem rfl
    have huopt : r.userMessage ≠ opt := fun he => huid (by rw [he])
    simp only [handleSendHistory, List.mem_cons, List.mem_singleton,
      List.not_mem_nil, or_false] at hs
    rcases hs with h | h | h
    · subst h
      rintro ⟨ho, _⟩
      exact hoptprev ho
    · subst h
      rintro ⟨_, hu⟩
      rcases List.mem_append.mp hu with h2 | h2
      · exact hnew h2
      · exact huopt (List.mem_singleton.mp h2)
    · subst h
      rintro ⟨ho, _⟩
      rw [hfilter] at ho
      rcases List.mem_append.mp ho with h2 | h2
      · exact hoptprev h2
      · rcases List.mem_cons.mp h2 with h3 | h3
        · exact huopt h3.symm
        · exact haid (by rw [List.mem_singleton.mp h3])

/-- Witness for `successReconciliationIsAtomic` at a concrete successful
send over a one-message conversation. -/
theorem successReconciliationIsAtomicWitness :
    handleSendFinal [mExisting] mTemp (SendResult.ok rSuccess) =
      [mExisting] ++ [rSuccess.userMessage, rSuccess.aiMessage] ∧
    ∀ s ∈ handleSendHistory [mExisting] mTemp (SendResult.ok rSuccess),
      ¬ (mTemp ∈ s ∧ rSuccess.userMessage ∈ s) :=
  successReconciliationIsAtomic [mExisting] mTemp rSuccess
    (by decide) (by decide) (by decide) (by decide)

/-- A JSON value, the result of `JSON.parse`.  Numbers are embedded as
integers: the protocol's only numeric field is the citation page number,
and no record of this repository carries a fractional or exponent-form
number. -/
inductive Json where
  | null : Json
  | bool (b : Bool) : Json
  | num (n : Int) : Json
  | str (s : String) : Json
  | arr (elems : List Json) : Json
  | obj (fields : List (String × Json)) : Json

/-- JSON whitespace skipping. -/
def skipWs : List Char → List Char
  | c :: cs => if c = ' ' ∨ c = '\n' ∨ c = '\t' ∨ c = '\r' then skipWs cs else c :: cs
  | [] => []

/-- The body of a JSON string after its opening quote, accumulating
characters until the closing quote, with the escape sequences of JSON
text (`\u` escapes are not needed by any record of this repository and
make the parse fail). -/
def parseStringAux : List Char → List Char → Option (String × List Char)
  | acc, '"' :: rest => some (String.mk acc.reverse, rest)
  | acc, '\\' :: e :: rest =>
      match e with
      | '"' => parseStringAux ('"' :: acc) rest
      | '\\' => parseStringAux ('\\' :: acc) rest
      | '/' => parseStringAux ('/' :: acc) rest
      | 'n' => parseStringAux ('\n' :: acc) rest
      | 't' => parseStringAux ('\t' :: acc) rest
      | 'r' => parseStringAux ('\r' :: acc) rest
      | 'b' => parseStringAux ('\x08' :: acc) rest
      | 'f' => parseStringAux ('\x0c' :: acc) rest
      | _ => none
  | acc, c :: rest => parseStringAux (c :: acc) rest
  | _, [] => none

/-- Whether a character is a decimal digit. -/
def isDigitCh (c : Char) : Bool := '0' ≤ c ∧ c ≤ '9'

/-- The numeric value of a decimal digit character. -/
def digitVal (c : Char) : Nat := c.toNat - '0'.toNat

/-- Consume a run of decimal digits, accumulating their value. -/
def takeDigits : List Char → Nat → Nat × List Char
  | c :: rest, acc =>
      if isDigitCh c then takeDigits rest (10 * acc + digitVal c) else (acc, c :: rest)
  | [], acc => (acc, [])

/-- A JSON number (integer syntax; see `Json`). -/
def parseNum : List Char → Option (Json × List Char)
  | '-' :: c :: rest =>
      if isDigitCh c then
        let p := takeDigits rest (digitVal c)
        some (Json.num (-(p.1 : Int)), p.2)
      else none
  | c :: rest =>
      if isDigitCh c then
        let p := takeDigits rest (digitVal c)
        some (Json.num ((p.1 : Int)), p.2)
      else none
  | [] => none

mutual

/-- Recursive-descent JSON value parser (the behaviour of `JSON.parse`
on the record grammar of the event stream), with a fuel argument for
termination; `jsonParseChars` supplies ample fuel. -/
def parseValue : Nat → List Char → Option (Json × List Char)
  | 0, _ => none
  | f + 1, cs =>
      match skipWs cs with
      | [] => none
      | '\x7b' :: rest => parseObjBody f rest
      | '[' :: rest => parseArrBody f rest
      | '"' :: rest => (parseStringAux [] rest).map fun p => (Json.str p.1, p.2)
      | 't' :: 'r' :: 'u' :: 'e' :: rest => some (Json.bool true, rest)
      | 'f' :: 'a' :: 'l' :: 's' :: 'e' :: rest => some (Json.bool false, rest)
      | 'n' :: 'u' :: 'l' :: 'l' :: rest => some (Json.null, rest)
      | c :: rest => parseNum (c :: rest)

/-- The inside of a JSON object, just after `\x7b`. -/
def parseObjBody : Nat → List Char → Option (Json × List Char)
  | 0, _ => none
  | f + 1, cs =>
      match skipWs cs with
      | '\x7d' :: rest => some (Json.obj [], rest)
      | other => parseMembers f other []

/-- The members of a non-empty JSON object. -/
def parseMembers : Nat → List Char → List (String × Json) →
    Option (Json × List Char)
  | 0, _, _ => none
  | f + 1, cs, acc =>
      match skipWs cs with
      | '"' :: rest =>
          match parseStringAux [] rest with
          | none => none
          | some (key, rest2) =>
              match skipWs rest2 with
              | ':' :: rest3 =>
                  match parseValue f rest3 with
                  | none => none
                  | some (v, rest4) =>
                      match skipWs rest4 with
                      | ',' :: rest5 => parseMembers f rest5 (acc ++ [(key, v)])
                      | '\x7d' :: rest5 => some (Json.obj (acc ++ [(key, v)]), rest5)
                      | _ => none
              | _ => none
      | _ => none

/-- The inside of a JSON array, just after `[`. -/
def parseArrBody : Nat → List Char → Option (Json × List Char)
  | 0, _ => none
  | f + 1, cs =>
      match skipWs cs with
      | ']' :: rest => some (Json.arr [], rest)
      | other => parseElems f other []

/-- The elements of a non-empty JSON array. -/
def parseElems : Nat → List Char → List Json → Option (Json × List Char)
  | 0, _, _ => none
  | f + 1, cs, acc =>
      match parseValue f cs with
      | none => none
      | some (v, rest) =>
          match skipWs rest with
          | ',' :: rest2 => parseElems f rest2 (acc ++ [v])
          | ']' :: rest2 => some (Json.arr (acc ++ [v]), rest2)
          | _ => none

end

/-- `JSON.parse` on a character sequence: parse one value and require
only whitespace after it, otherwise fail. -/
def jsonParseChars (cs : List Char) : Option Json :=
  match parseValue (4 * cs.length + 8) cs with
  | some (j, rest) => if (skipWs rest).isEmpty then some j else none
  | none => none

/-- First-match field lookup in a parsed JSON object (no record of this
repository carries duplicate keys). -/
def lookupField : List (String × Json) → String → Option Json
  | [], _ => none
  | (k, v) :: rest, key => if k = key then some v else lookupField rest key

/-- Property access `j[key]` on a parsed JSON value. -/
def Json.getField : Json → String → Option Json
  | Json.obj fields, key => lookupField fields key
  | _, _ => none

/-- A parsed JSON value as a string payload. -/
def Json.asStr : Json → Option String
  | Json.str s => some s
  | _ => none

/-- A parsed JSON value as an integer payload. -/
def Json.asInt : Json → Option Int
  | Json.num n => some n
  | _ => none

/-- Collect a list of optional values, failing when any is missing. -/
def allSome {α : Type} : List (Option α) → Option (List α)
  | [] => some []
  | some a :: rest => (allSome rest).map fun l => a :: l
  | none :: _ => none

/-- A parsed JSON object as a Citation (the shape of §3 of the
protocol). -/
def citationOfJson (j : Json) : Option Citation :=
  match (j.getField ("chunk_id")).bind Json.asStr,
      (j.getField ("document_id")).bind Json.asStr,
      (j.getField ("filename")).bind Json.asStr,
      (j.getField ("page")).bind Json.asInt with
  | some a, some b, some c, some d => some ⟨a, b, c, d⟩
  | _, _, _, _ => none

/-- A parsed JSON array as a Citation list. -/
def citationsOfJson : Json → Option (List Citation)
  | Json.arr xs => allSome (xs.map citationOfJson)
  | _ => none

/-- A parsed JSON object as a WebSource. -/
def webSourceOfJson (j : Json) : Option WebSource :=
  match (j.getField ("url")).bind Json.asStr,
      (j.getField ("title")).bind Json.asStr,
      (j.getField ("snippet")).bind Json.asStr with
  | some a, some b, some c => some ⟨a, b, c⟩
  | _, _, _ => none

/-- A parsed JSON array as a WebSource list. -/
def webSourcesOfJson : Json → Option (List WebSource)
  | Json.arr xs => allSome (xs.map webSourceOfJson)
  | _ => none

/-- A parsed JSON object as a Message. -/
def messageOfJson (j : Json) : Option Message :=
  match (j.getField ("id")).bind Json.asStr,
      (j.getField ("content")).bind Json.asStr,
      (j.getField ("role")).bind Json.asStr,
      (j.getField ("created_at")).bind Json.asStr,
      (j.getField ("chat_id")).bind Json.asStr,
      (j.getField ("clerk_id")).bind Json.asStr with
  | some i, some c, some r, some cr, some ch, some cl =>
      some { id := i
             content := c
             role := r
             created_at := cr
             chat_id := ch
             clerk_id := cl
             citations := (j.getField ("citations")).bind citationsOfJson }
  | _, _, _, _, _, _ => none

/-- The parsed record `{type, content}` as a typed decoded event: the
dispatch of the source's `switch (event.type)`, with each payload read at
the type the protocol gives it (see `StreamEvent`).  A record without a
string `type` is not an event (`none`, and the switch would do nothing
with it); a `type` with no switch case is `other`. -/
def eventOfJson (j : Json) : Option StreamEvent :=
  match (j.getField ("type")).bind Json.asStr with
  | none => none
  | some t =>
      if t = "status" then
        ((j.getField ("content")).bind Json.asStr).map StreamEvent.status
      else if t = "token" then
        ((j.getField ("content")).bind Json.asStr).map StreamEvent.token
      else if t = "citations" then
        ((j.getField ("content")).bind citationsOfJson).map StreamEvent.citations
      else if t = "web_sources" then
        ((j.getField ("content")).bind webSourcesOfJson).map StreamEvent.webSources
      else if t = "user_message" then
        ((j.getField ("content")).bind messageOfJson).map StreamEvent.userMessage
      else if t = "ai_message" then
        ((j.getField ("content")).bind messageOfJson).map StreamEvent.aiMessage
      else if t = "guardrail_blocked" then
        ((j.getField ("content")).bind Json.asStr).map StreamEvent.guardrailBlocked
      else if t = "guardrail_warning" then
        ((j.getField ("content")).bind Json.asStr).map StreamEvent.guardrailWarning
      else if t = "done" then some StreamEvent.done
      else if t = "error" then
        ((j.getField ("content")).bind Json.asStr).map StreamEvent.error
      else some (StreamEvent.other t)

/-- `chunk.split("\n")`: split a character sequence at every newline,
keeping empty segments (so a trailing newline yields a final empty
line, exactly as in JavaScript). -/
def splitLines : List Char → List (List Char)
  | [] => [[]]
  | '\n' :: rest => [] :: splitLines rest
  | c :: rest =>
      match splitLines rest with
      | [] => [[c]]
      | l :: ls => (c :: l) :: ls

/-- `line.startsWith("data: ")`. -/
def startsWithData : List Char → Bool
  | 'd' :: 'a' :: 't' :: 'a' :: ':' :: ' ' :: _ => true
  | _ => false

/-- Decode one line of a chunk (lines 111-113 of `useStreamingChat.ts`):
keep only lines carrying the `"data: "` prefix, strip the prefix
(`line.slice(6)`), and `JSON.parse` the remainder into an event.  `none`
means the line contributes nothing: either it lacks the prefix, or its
JSON fails to parse and the `catch (parseError)` handler discards it. -/
def decodeLine (line : List Char) : Option StreamEvent :=
  if startsWithData line then (jsonParseChars (line.drop 6)).bind eventOfJson
  else none

/-- All events decoded from one chunk, split into lines independently of
every other chunk — the source keeps no carry-over between chunks. -/
def decodeChunkEvents (chunk : String) : List StreamEvent :=
  (splitLines chunk.data).filterMap decodeLine

/-- The decoded event sequence of a sequence of byte chunks under the
source's framing (lines 107-110 of `useStreamingChat.ts`): every chunk is
split on `"\n"` on its own, with no buffering of an unterminated trailing
line into the next chunk. -/
def decodeChunksNoBuffer : List String → List StreamEvent
  | [] => []
  | c :: rest => decodeChunkEvents c ++ decodeChunksNoBuffer rest

/-- Process one line of a chunk against the session state: parse, then
fold the event (with the parse failure and the thrown `error` both
discarded by the shared `catch (parseError)` handler). -/
def processLine (st : SessionState) (line : List Char) : SessionState :=
  match decodeLine line with
  | some e => processEvent st e
  | none => st

/-- Process one chunk: split into lines and fold each line in order. -/
def processChunk (st : SessionState) (chunk : String) : SessionState :=
  (splitLines chunk.data).foldl processLine st

/-- The full read loop of `sendMessage` at the byte-chunk level: fold
every chunk the transport delivers, starting from the fresh state. -/
def processChunks (chunks : List String) : SessionState :=
  chunks.foldl processChunk initialState

/-- The first chunk of the concrete split-record scenario of §8 of the
spec: a complete `token "Hi"` record followed by the first half of a
`token " there"` record, cut mid-JSON. -/
def chunkA : String :=
  "data: \x7b\"type\":\"token\",\"content\":\"Hi\"\x7d\ndata: \x7b\"type\":\"tok"

/-- The second chunk of the scenario: the rest of the `token " there"`
record, then a `done` record with a trailing newline. -/
def chunkB : String :=
  "en\",\"content\":\" there\"\x7d\ndata: \x7b\"type\":\"done\",\"content\":null\x7d\n"

/-- C1.  The claim (with §4.2 and §9 of the spec) requires framing to be
chunk-boundary independent: pushing the two chunks of the concrete
scenario through the frame decoder must yield the same decoded events as
delivering their concatenation in one chunk, the unterminated trailing
line of the first chunk being buffered and joined with the second.  The
code instead splits each chunk on `"\n"` independently (line 108 of
`useStreamingChat.ts`) and carries nothing over: on the split delivery
the trailing fragment `data: \x7b"type":"tok` fails to parse and is
discarded, and the continuation `en","content":" there"\x7d` lacks the
`data: ` prefix and is skipped, so the `token " there"` record is lost —
the decoded sequences differ and the final text is `"Hi"` instead of the
`"Hi there"` the spec requires. -/
theorem chunkSplitLosesRecord :
    decodeChunksNoBuffer [chunkA, chunkB] =
      [StreamEvent.token ("Hi"), StreamEvent.done] ∧
    decodeChunksNoBuffer [chunkA ++ chunkB] =
      [StreamEvent.token ("Hi"), StreamEvent.token (" there"), StreamEvent.done] ∧
    decodeChunksNoBuffer [chunkA, chunkB] ≠ decodeChunksNoBuffer [chunkA ++ chunkB] ∧
    (processChunks [chunkA, chunkB]).fullResponse = "Hi" ∧
    (processChunks [chunkA ++ chunkB]).fullResponse = "Hi there" := by
  refine ⟨?_, ?_, ?_, ?_, ?_⟩ <;> decide
